import Mathlib

/-!
Verification of the knowledge-and-decision engine of a Clue-like game
(`player.py`): the `LogBook` belief state, the `Player` turn state machine
(`next_turn_action`, `move_path`, `show_card`), the `SolutionMatcher`, and the
`ComputerPlayer` multi-turn movement policy (`use_roll`).

The card/solution/path value types live in modules (`definitions.py`,
`paths.py`) that are not part of the analysed sources; they are modelled from
the spec where indicated.  Python exceptions are modelled with `Except`: a
function that can raise returns `.error`, and no mutated state escapes on the
error path unless the model explicitly carries it (as `found_solution` does).
Mutable objects become explicit state records; numpy arrays become `List Nat`.
-/

namespace Clue

/-- Modelled from the spec: `definitions.py` is not among the sources.  A card
category is one of WEAPON, ROOM, CHARACTER (spec §3). -/
inductive CardType where
  | weapon
  | room
  | character
deriving DecidableEq, Repr

/-- Modelled from the spec: cards are value-equal pairs of a category and an
enumerated value; `card.value.value` in the source is the 1-based enum number,
so we carry that number directly (spec §3). -/
structure Card where
  type : CardType
  value : Nat
deriving DecidableEq, Repr

/-- Modelled from the spec: the full deck is 6 characters, 6 weapons and
9 rooms (`Deck.static_deck` in `definitions.py`, spec §3). -/
def staticDeck : List Card :=
  ((List.range 6).map (fun i => ⟨CardType.character, i + 1⟩))
    ++ ((List.range 6).map (fun i => ⟨CardType.weapon, i + 1⟩))
    ++ ((List.range 9).map (fun i => ⟨CardType.room, i + 1⟩))

/-- Modelled from the spec: a Solution is a triple of optional cards
(character, weapon, room), each slot unset or holding a card (spec §3). -/
structure Solution where
  character : Option Card
  weapon : Option Card
  room : Option Card
deriving DecidableEq, Repr

/-- Modelled from the spec: "Complete ⇔ all three slots set" (spec §3). -/
def Solution.is_complete (s : Solution) : Bool :=
  s.character.isSome && s.weapon.isSome && s.room.isSome

/-- Modelled from the spec: a Solution is empty when no slot is set
(`Solution.is_empty`, used by `show_card`). -/
def Solution.is_empty (s : Solution) : Bool :=
  s.character.isNone && s.weapon.isNone && s.room.isNone

/-- Source `Hand` from `player.py`: the held cards, partitioned by category. -/
structure Hand where
  all : List Card
  weapons : List Card
  rooms : List Card
  characters : List Card
deriving DecidableEq, Repr

def Hand.empty : Hand := ⟨[], [], [], []⟩

/-- Source `Hand.add` from `player.py`: append to `all` and to the category list. -/
def Hand.add (h : Hand) (card : Card) : Hand :=
  let h := { h with all := h.all ++ [card] }
  if card.type = CardType.weapon then { h with weapons := h.weapons ++ [card] }
  else if card.type = CardType.room then { h with rooms := h.rooms ++ [card] }
  else { h with characters := h.characters ++ [card] }

/-- Source `Hand.has_card` from `player.py`: look the card up in its category list;
`list.index` raising `ValueError` means "not held" (caught), so the method is
membership in the category list. -/
def Hand.has_card (h : Hand) (card : Card) : Bool :=
  match card.type with
  | CardType.weapon => h.weapons.contains card
  | CardType.room => h.rooms.contains card
  | CardType.character => h.characters.contains card

/-- Source `hand.has_card(slot)` where the slot may be Python `None`: accessing
`card.type` on `None` raises `AttributeError`, which `has_card` does not
catch. -/
def Hand.has_card_opt (h : Hand) : Option Card → Except String Bool
  | none => Except.error "AttributeError"
  | some c => Except.ok (h.has_card c)

namespace SolutionMatcher

/-- Source `SolutionMatcher.compare_to_hand` from `player.py`: checks the weapon,
room and character slots of the candidate against the hand, in that order,
collecting the matching cards.  A `None` slot makes `has_card` raise, and the
partially built `matches` object is lost with the exception. -/
def compare_to_hand (hand : Hand) (solution : Solution) : Except String Solution := do
  let w ← hand.has_card_opt solution.weapon
  let r ← hand.has_card_opt solution.room
  let c ← hand.has_card_opt solution.character
  Except.ok
    { character := if c then solution.character else none
      weapon := if w then solution.weapon else none
      room := if r then solution.room else none }

end SolutionMatcher

/-- Source `LogBook` from `player.py`: the per-card eliminated map (a dict over the
whole static deck, modelled as a total boolean function on cards), the three
numpy category arrays, and the progressively deduced solution. -/
@[ext]
structure LogBook where
  log_book : Card → Bool
  weapons : List Nat
  characters : List Nat
  rooms : List Nat
  solution : Solution

/-- Source `LogBook.__init__`: every deck card mapped to `False`, zeroed arrays of
sizes 6/6/9, and an all-unset solution. -/
def LogBook.init : LogBook :=
  { log_book := fun _ => false
    weapons := List.replicate 6 0
    characters := List.replicate 6 0
    rooms := List.replicate 9 0
    solution := ⟨none, none, none⟩ }

/-- Source `LogBook.get`: all deck cards of the category whose eliminated flag equals
`known` (dict iteration order is the deck order). -/
def LogBook.get (b : LogBook) (card_type : CardType) (known : Bool) : List Card :=
  staticDeck.filter (fun c => c.type == card_type && b.log_book c == known)

/-- Source `LogBook.find_solution`: no-op once the solution is complete; otherwise,
for the logged card's category with a still-unset slot, if exactly one card of
that category is not eliminated, deduce it into the slot. -/
def LogBook.find_solution (b : LogBook) (card_type : CardType) : LogBook :=
  if b.solution.is_complete then b
  else
    let b1 :=
      if card_type == CardType.character && b.solution.character == none then
        let remaining := b.get CardType.character false
        if remaining.length == 1 then
          { b with solution := { b.solution with character := remaining.head? } }
        else b
      else b
    let b2 :=
      if card_type == CardType.room && b1.solution.room == none then
        let remaining := b1.get CardType.room false
        if remaining.length == 1 then
          { b1 with solution := { b1.solution with room := remaining.head? } }
        else b1
      else b1
    if card_type == CardType.weapon && b2.solution.weapon == none then
      let remaining := b2.get CardType.weapon false
      if remaining.length == 1 then
        { b2 with solution := { b2.solution with weapon := remaining.head? } }
      else b2
    else b2

/-- Source `LogBook.log`: no-op on `None`; otherwise mark the card eliminated, run
the category-scoped deduction, then set the card's slot in its category
array to 1. -/
def LogBook.log (b : LogBook) (card : Option Card) : LogBook :=
  match card with
  | none => b
  | some card =>
    let b1 := { b with log_book := Function.update b.log_book card true }
    let b2 := b1.find_solution card.type
    let index := card.value - 1
    if card.type == CardType.weapon then { b2 with weapons := b2.weapons.set index 1 }
    else if card.type == CardType.character then
      { b2 with characters := b2.characters.set index 1 }
    else { b2 with rooms := b2.rooms.set index 1 }

/-- Source `LogBook.has_solution`. -/
def LogBook.has_solution (b : LogBook) : Bool :=
  b.solution.is_complete

/-- Source `LogBook.is_room_known`: whether the room's card is eliminated. -/
def LogBook.is_room_known (b : LogBook) (room : Nat) : Bool :=
  b.log_book ⟨CardType.room, room⟩

/-- Character branch of `LogBook.found_solution`.  If the character slot is
unset, Python evaluates `self.log_book[solution.character]`; on a `None`
candidate slot this raises (modelled as `.error` carrying the state at the
raise).  When the branch fires it adopts the candidate character and rebuilds
the `characters` array as ones with the candidate character's index zeroed;
the per-card map is not touched. -/
def LogBook.found_solution_char (b : LogBook) (solution : Solution) :
    Except (String × LogBook) LogBook :=
  if b.solution.character == none then
    match solution.character with
    | none => Except.error ("KeyError", b)
    | some ch =>
      if b.log_book ch == false then
        Except.ok { b with
          solution := { b.solution with character := some ch }
          characters := (List.replicate 6 1).set (ch.value - 1) 0 }
      else Except.ok b
  else Except.ok b

/-- Weapon branch of `LogBook.found_solution`.  Mirrors the source, bug
included: after adopting the candidate weapon it rebuilds `weapons` as ones
and zeroes the index of the candidate CHARACTER's value
(`self.weapons[solution.character.value.value - 1] = 0`); accessing that
index when the candidate character is `None` raises after the slot was
already assigned. -/
def LogBook.found_solution_weapon (b : LogBook) (solution : Solution) :
    Except (String × LogBook) LogBook :=
  if b.solution.weapon == none then
    match solution.weapon with
    | none => Except.error ("KeyError", b)
    | some w =>
      if b.log_book w == false then
        let b2 := { b with
          solution := { b.solution with weapon := some w }
          weapons := List.replicate 6 1 }
        match solution.character with
        | none => Except.error ("AttributeError", b2)
        | some ch => Except.ok { b2 with weapons := b2.weapons.set (ch.value - 1) 0 }
      else Except.ok b
  else Except.ok b

/-- Room branch of `LogBook.found_solution`.  Mirrors the source, bugs
included: the `rooms` array is rebuilt with size 6 (`np.ones((6,))`, though
there are 9 rooms) and the zeroed index is again the candidate CHARACTER's. -/
def LogBook.found_solution_room (b : LogBook) (solution : Solution) :
    Except (String × LogBook) LogBook :=
  if b.solution.room == none then
    match solution.room with
    | none => Except.error ("KeyError", b)
    | some r =>
      if b.log_book r == false then
        let b2 := { b with
          solution := { b.solution with room := some r }
          rooms := List.replicate 6 1 }
        match solution.character with
        | none => Except.error ("AttributeError", b2)
        | some ch => Except.ok { b2 with rooms := b2.rooms.set (ch.value - 1) 0 }
      else Except.ok b
  else Except.ok b

/-- Source `LogBook.found_solution`: the three branches in source order
(character, weapon, room). -/
def LogBook.found_solution (b : LogBook) (solution : Solution) :
    Except (String × LogBook) LogBook := do
  let b1 ← b.found_solution_char solution
  let b2 ← b1.found_solution_weapon solution
  b2.found_solution_room solution

/-- A mutating operation on a `LogBook` (its public mutators). -/
inductive LogOp where
  | logCard (card : Option Card)
  | foundSolution (solution : Solution)

/-- Apply one operation; an exception escaping `found_solution` leaves the
object in its state at the raise. -/
def LogBook.apply_op (b : LogBook) : LogOp → LogBook
  | LogOp.logCard c => b.log c
  | LogOp.foundSolution s =>
    match b.found_solution s with
    | Except.ok b2 => b2
    | Except.error (_, b2) => b2

/-- Run a sequence of operations left to right. -/
def LogBook.run (b : LogBook) (ops : List LogOp) : LogBook :=
  ops.foldl LogBook.apply_op b

/-- The slot of a solution for a given category. -/
def Solution.slot (s : Solution) : CardType → Option Card
  | CardType.character => s.character
  | CardType.weapon => s.weapon
  | CardType.room => s.room

/-- Source `PlayerAction` from `player.py`. -/
inductive PlayerAction where
  | accusation
  | guess
  | move
deriving DecidableEq, Repr

/-- Modelled from the spec: `paths.py` is not among the sources.  A board step
is either a free-space coordinate (`Space`, with row and column) or a room
entry (`RoomPosition`); the spec lists exactly these two step kinds (§6). -/
inductive PathStep where
  | space (row col : Int)
  | roomPosition (room : Nat)
deriving DecidableEq, Repr

/-- Modelled from the spec: a `RoomPath` is an ordered sequence of steps plus
the declared target room (§3, §6). -/
structure RoomPath where
  room : Nat
  path : List PathStep
deriving DecidableEq, Repr

/-- Modelled from the spec: the total distance of a `RoomPath` is its number
of steps — §8's example splits a distance-5 path at roll 3 into a consumed
part and a remainder of distance 2, i.e. `path[:3]` and `path[3:]`. -/
def RoomPath.distance (rp : RoomPath) : Nat :=
  rp.path.length

/-- The mutable fields of `Player` the analysed methods touch: hand, log
book, and the location, which is either a room or a free coordinate. -/
structure PlayerState where
  hand : Hand
  log_book : LogBook
  room : Option Nat
  position : Option (Int × Int)

namespace Player

/-- Source `Player.show_card`: compare the guess to the hand; `None` when nothing
matches, otherwise keep exactly one slot, character over weapon over room. -/
def show_card (p : PlayerState) (guess : Solution) : Except String (Option Solution) := do
  let m ← SolutionMatcher.compare_to_hand p.hand guess
  if m.is_empty then Except.ok none
  else if m.character.isSome then Except.ok (some { m with weapon := none, room := none })
  else if m.weapon.isSome then Except.ok (some { m with character := none, room := none })
  else Except.ok (some { m with weapon := none, character := none })

/-- Source `Player.next_turn_action`.  `should_guess_current_room` is dynamically
dispatched to the concrete player (the base class raises), so it is a
parameter; Python's `or` short-circuits, so it is not consulted when the
player is not in a room. -/
def next_turn_action (p : PlayerState)
    (should_guess_current_room : PlayerState → Bool) : PlayerAction :=
  if p.log_book.has_solution then PlayerAction.accusation
  else if p.room == none || !(should_guess_current_room p) then PlayerAction.move
  else PlayerAction.guess

/-- Source `Player.enter_room`. -/
def enter_room (p : PlayerState) (room : Nat) : PlayerState :=
  { p with room := some room, position := none }

/-- One step of `Player.move_path`'s walk: a `Space` clears the room and sets
the coordinate, a `RoomPosition` enters the room. -/
def move_step (p : PlayerState) (s : PathStep) : PlayerState :=
  match s with
  | PathStep.space row col => { p with room := none, position := some (row, col) }
  | PathStep.roomPosition r => enter_room p r

/-- Source `Player.move_path`: raise if the roll is smaller than the path's
distance — before any step runs — otherwise walk the steps in order. -/
def move_path (p : PlayerState) (roll : Nat) (room_path : RoomPath) :
    Except String PlayerState :=
  if roll < room_path.distance then Except.error "Path is longer than roll"
  else Except.ok (room_path.path.foldl move_step p)

end Player

/-- Source `ComputerPlayer`: a player plus the carried-over remainder path. -/
structure ComputerPlayerState extends PlayerState where
  remaining_path : Option RoomPath

namespace ComputerPlayer

/-- Source `ComputerPlayer.enter_room`: the base behaviour, then clear the
remainder. -/
def enter_room (cp : ComputerPlayerState) (room : Nat) : ComputerPlayerState :=
  { cp with toPlayerState := Player.enter_room cp.toPlayerState room
            remaining_path := none }

/-- Source `ComputerPlayer._use_remaining_roll`, called with the non-`None`
remainder `rp`: split it at the roll, or consume it whole and clear it. -/
def use_remaining_roll (cp : ComputerPlayerState) (rp : RoomPath) (roll : Nat) :
    RoomPath × ComputerPlayerState :=
  if rp.distance > roll then
    (⟨rp.room, rp.path.take roll⟩,
     { cp with remaining_path := some ⟨rp.room, rp.path.drop roll⟩ })
  else
    (rp, { cp with remaining_path := none })

/-- Source `ComputerPlayer.use_roll`.  When no remainder is pending the source picks
`chosen` at random among the paths to still-unknown rooms; the choice is a
parameter here.  A too-long chosen path is truncated to the roll and its tail
retained. -/
def use_roll (cp : ComputerPlayerState) (roll : Nat) (chosen : RoomPath) :
    RoomPath × ComputerPlayerState :=
  match cp.remaining_path with
  | some rp => use_remaining_roll cp rp roll
  | none =>
    if chosen.distance > roll then
      (⟨chosen.room, chosen.path.take roll⟩,
       { cp with remaining_path := some ⟨chosen.room, chosen.path.drop roll⟩ })
    else (chosen, cp)

end ComputerPlayer

/-! ### Helper definitions and lemmas -/

/-- Set the slot of a solution for a given category (proof helper). -/
def Solution.setSlot (s : Solution) (k : CardType) (v : Option Card) : Solution :=
  match k with
  | CardType.character => { s with character := v }
  | CardType.weapon => { s with weapon := v }
  | CardType.room => { s with room := v }

/-- The state a `LogBook` exception leaves the object in (proof helper). -/
def errState : Except (String × LogBook) LogBook → LogBook
  | Except.ok b => b
  | Except.error (_, b) => b

theorem Solution.is_complete_eq_false_of_slot_none {s : Solution} {k : CardType}
    (h : s.slot k = none) : s.is_complete = false := by
  cases k <;>
    simp only [Solution.slot] at h <;>
    simp [Solution.is_complete, h]

theorem LogBook.get_eq_of_log_book {b1 b2 : LogBook} (h : b1.log_book = b2.log_book)
    (k : CardType) (known : Bool) : b1.get k known = b2.get k known := by
  unfold LogBook.get
  rw [h]

/-- Source `find_solution` in one equation: it assigns the unique remaining card of
the logged category into a still-unset slot, and otherwise does nothing. -/
theorem LogBook.find_solution_eq (b : LogBook) (t : CardType) :
    b.find_solution t =
      if (b.get t false).length = 1 ∧ b.solution.slot t = none then
        { b with solution := b.solution.setSlot t (b.get t false).head? }
      else b := by
  cases t <;>
    simp only [LogBook.find_solution, Solution.slot, Solution.setSlot] <;>
    rcases hc : b.solution.character with _ | xc <;>
    rcases hw : b.solution.weapon with _ | xw <;>
    rcases hr : b.solution.room with _ | xr <;>
    simp [Solution.is_complete, hc, hw, hr]

theorem Solution.slot_setSlot_same (s : Solution) (k : CardType) (v : Option Card) :
    (s.setSlot k v).slot k = v := by
  cases k <;> rfl

theorem Solution.slot_setSlot_ne (s : Solution) {k k2 : CardType} (v : Option Card)
    (h : k2 ≠ k) : (s.setSlot k v).slot k2 = s.slot k2 := by
  cases k <;> cases k2 <;> first | rfl | exact absurd rfl h

theorem LogBook.find_solution_log_book (b : LogBook) (t : CardType) :
    (b.find_solution t).log_book = b.log_book := by
  rw [LogBook.find_solution_eq]
  split <;> rfl

theorem LogBook.find_solution_get (b : LogBook) (t k : CardType) (known : Bool) :
    (b.find_solution t).get k known = b.get k known :=
  LogBook.get_eq_of_log_book (LogBook.find_solution_log_book b t) k known

theorem LogBook.find_solution_slot_ne (b : LogBook) {t k : CardType} (h : k ≠ t) :
    (b.find_solution t).solution.slot k = b.solution.slot k := by
  rw [LogBook.find_solution_eq]
  split
  · exact Solution.slot_setSlot_ne _ _ h
  · rfl

theorem LogBook.find_solution_slot_of_some (b : LogBook) {t k : CardType} {x : Card}
    (h : b.solution.slot k = some x) : (b.find_solution t).solution.slot k = some x := by
  by_cases hk : k = t
  · subst hk
    rw [LogBook.find_solution_eq]
    split
    · rename_i hcond
      exact absurd h (by simp [hcond.2])
    · exact h
  · rw [LogBook.find_solution_slot_ne b hk]
    exact h

/-- The per-card-map part of `log` on a real card (proof helper). -/
def LogBook.mark (b : LogBook) (c : Card) : LogBook :=
  { b with log_book := Function.update b.log_book c true }

theorem LogBook.log_some_log_book (b : LogBook) (c : Card) :
    (b.log (some c)).log_book = Function.update b.log_book c true := by
  simp only [LogBook.log]
  repeat' split
  all_goals simp [LogBook.find_solution_log_book]

theorem LogBook.log_some_solution (b : LogBook) (c : Card) :
    (b.log (some c)).solution = ((b.mark c).find_solution c.type).solution := by
  simp only [LogBook.log, LogBook.mark]
  repeat' split
  all_goals rfl

theorem LogBook.log_some_get (b : LogBook) (c : Card) (k : CardType) (known : Bool) :
    (b.log (some c)).get k known = (b.mark c).get k known :=
  LogBook.get_eq_of_log_book (by rw [LogBook.log_some_log_book]; rfl) k known

theorem LogBook.get_mark_of_type_ne (b : LogBook) {c : Card} {k : CardType} (known : Bool)
    (h : ¬ c.type = k) : (b.mark c).get k known = b.get k known := by
  unfold LogBook.mark LogBook.get
  refine List.filter_congr (fun d _ => ?_)
  by_cases hdc : d = c
  · subst hdc
    have ht : (d.type == k) = false := beq_eq_false_iff_ne.mpr h
    simp [ht]
  · simp [Function.update_noteq hdc]

theorem LogBook.get_mark_false_of_type_eq (b : LogBook) {c : Card} {k : CardType}
    (h : c.type = k) :
    (b.mark c).get k false = (b.get k false).filter (fun d => !(d == c)) := by
  unfold LogBook.mark LogBook.get
  rw [List.filter_filter]
  refine List.filter_congr (fun d _ => ?_)
  by_cases hdc : d = c
  · subst hdc
    simp
  · simp [Function.update_noteq hdc, hdc]

theorem staticDeck_nodup : staticDeck.Nodup := by decide

theorem LogBook.get_nodup (b : LogBook) (k : CardType) (known : Bool) :
    (b.get k known).Nodup :=
  staticDeck_nodup.filter _

theorem length_filter_ne_ge {l : List Card} (h : l.Nodup) (c : Card) :
    l.length - 1 ≤ (l.filter (fun d => !(d == c))).length := by
  induction l with
  | nil => simp
  | cons a l ih =>
    rcases List.nodup_cons.mp h with ⟨ha, hl⟩
    by_cases hac : a = c
    · subst hac
      have : l.filter (fun d => !(d == a)) = l :=
        List.filter_eq_self.mpr (fun d hd => by
          simp only [Bool.not_eq_true']
          exact beq_eq_false_iff_ne.mpr (fun hda => ha (hda ▸ hd)))
      simp [this]
    · have := ih hl
      simp only [List.filter_cons, beq_eq_false_iff_ne, hac]
      simp only [bne, beq_eq_false_iff_ne] at this ⊢
      simp only [List.length_cons]
      rw [if_pos (by simp [hac])]
      simp only [List.length_cons]
      omega

theorem LogBook.find_solution_weapons (b : LogBook) (t : CardType) :
    (b.find_solution t).weapons = b.weapons := by
  rw [LogBook.find_solution_eq]
  split <;> rfl

theorem LogBook.find_solution_characters (b : LogBook) (t : CardType) :
    (b.find_solution t).characters = b.characters := by
  rw [LogBook.find_solution_eq]
  split <;> rfl

theorem LogBook.find_solution_rooms (b : LogBook) (t : CardType) :
    (b.find_solution t).rooms = b.rooms := by
  rw [LogBook.find_solution_eq]
  split <;> rfl

theorem LogBook.log_some_weapons (b : LogBook) (c : Card) :
    (b.log (some c)).weapons =
      if c.type == CardType.weapon then b.weapons.set (c.value - 1) 1 else b.weapons := by
  simp only [LogBook.log]
  repeat' split
  all_goals simp_all [LogBook.find_solution_weapons]

theorem LogBook.log_some_characters (b : LogBook) (c : Card) :
    (b.log (some c)).characters =
      if c.type == CardType.character then b.characters.set (c.value - 1) 1
      else b.characters := by
  simp only [LogBook.log]
  repeat' split
  all_goals simp_all [LogBook.find_solution_characters]

theorem LogBook.log_some_rooms (b : LogBook) (c : Card) :
    (b.log (some c)).rooms =
      if c.type != CardType.weapon && c.type != CardType.character then
        b.rooms.set (c.value - 1) 1
      else b.rooms := by
  simp only [LogBook.log]
  repeat' split
  all_goals simp_all [LogBook.find_solution_rooms]

theorem LogBook.found_solution_char_err_log_book (b : LogBook) (s : Solution) :
    (errState (b.found_solution_char s)).log_book = b.log_book := by
  unfold LogBook.found_solution_char
  repeat' split
  all_goals simp only [errState]

theorem LogBook.found_solution_weapon_err_log_book (b : LogBook) (s : Solution) :
    (errState (b.found_solution_weapon s)).log_book = b.log_book := by
  unfold LogBook.found_solution_weapon
  repeat' split
  all_goals simp only [errState]

theorem LogBook.found_solution_room_err_log_book (b : LogBook) (s : Solution) :
    (errState (b.found_solution_room s)).log_book = b.log_book := by
  unfold LogBook.found_solution_room
  repeat' split
  all_goals simp only [errState]

theorem LogBook.found_solution_err_log_book (b : LogBook) (s : Solution) :
    (errState (b.found_solution s)).log_book = b.log_book := by
  have hc := LogBook.found_solution_char_err_log_book b s
  unfold LogBook.found_solution
  rcases h1 : b.found_solution_char s with p1 | b1 <;> rw [h1] at hc <;>
    simp only [errState] at hc
  · simpa [errState, Except.bind] using hc
  · have hw := LogBook.found_solution_weapon_err_log_book b1 s
    rcases h2 : b1.found_solution_weapon s with p2 | b2 <;> rw [h2] at hw <;>
      simp only [errState] at hw
    · simp only [h1, h2, Except.bind, errState, bind]
      rw [hw, hc]
    · have hr := LogBook.found_solution_room_err_log_book b2 s
      simp only [h1, h2, Except.bind, errState, bind]
      rcases h3 : b2.found_solution_room s with p3 | b3 <;> rw [h3] at hr <;>
        simp only [errState] at hr <;> dsimp only <;> rw [hr, hw, hc]

theorem LogBook.found_solution_char_slot_some (b : LogBook) (s : Solution)
    {k : CardType} {x : Card} (h : b.solution.slot k = some x) :
    (errState (b.found_solution_char s)).solution.slot k = some x := by
  unfold LogBook.found_solution_char
  repeat' split
  all_goals simp only [errState]
  all_goals try exact h
  all_goals cases k <;> simp_all [Solution.slot]

theorem LogBook.found_solution_weapon_slot_some (b : LogBook) (s : Solution)
    {k : CardType} {x : Card} (h : b.solution.slot k = some x) :
    (errState (b.found_solution_weapon s)).solution.slot k = some x := by
  unfold LogBook.found_solution_weapon
  repeat' split
  all_goals simp only [errState]
  all_goals try exact h
  all_goals cases k <;> simp_all [Solution.slot]

theorem LogBook.found_solution_room_slot_some (b : LogBook) (s : Solution)
    {k : CardType} {x : Card} (h : b.solution.slot k = some x) :
    (errState (b.found_solution_room s)).solution.slot k = some x := by
  unfold LogBook.found_solution_room
  repeat' split
  all_goals simp only [errState]
  all_goals try exact h
  all_goals cases k <;> simp_all [Solution.slot]

theorem LogBook.found_solution_slot_some (b : LogBook) (s : Solution)
    {k : CardType} {x : Card} (h : b.solution.slot k = some x) :
    (errState (b.found_solution s)).solution.slot k = some x := by
  have hc := LogBook.found_solution_char_slot_some b s h
  unfold LogBook.found_solution
  rcases h1 : b.found_solution_char s with p1 | b1 <;> rw [h1] at hc <;>
    simp only [errState] at hc
  · simpa [errState, Except.bind] using hc
  · have hw := LogBook.found_solution_weapon_slot_some b1 s hc
    rcases h2 : b1.found_solution_weapon s with p2 | b2 <;> rw [h2] at hw <;>
      simp only [errState] at hw
    · simp only [h1, h2, Except.bind, errState, bind]
      exact hw
    · have hr := LogBook.found_solution_room_slot_some b2 s hw
      simp only [h1, h2, Except.bind, errState, bind]
      exact hr

theorem LogBook.apply_op_foundSolution (b : LogBook) (s : Solution) :
    b.apply_op (LogOp.foundSolution s) = errState (b.found_solution s) := by
  simp only [LogBook.apply_op]
  cases h : b.found_solution s with
  | ok b2 => simp [errState]
  | error p => rcases p with ⟨e, b2⟩; simp [errState]

theorem LogBook.apply_op_log_book_mono (b : LogBook) (op : LogOp) (d : Card)
    (h : b.log_book d = true) : (b.apply_op op).log_book d = true := by
  cases op with
  | logCard c =>
    cases c with
    | none => exact h
    | some c =>
      show (b.log (some c)).log_book d = true
      rw [LogBook.log_some_log_book]
      by_cases hdc : d = c
      · subst hdc
        simp
      · rw [Function.update_noteq hdc]
        exact h
  | foundSolution s =>
    rw [LogBook.apply_op_foundSolution, LogBook.found_solution_err_log_book]
    exact h

theorem LogBook.apply_op_slot_some (b : LogBook) (op : LogOp) {k : CardType} {x : Card}
    (h : b.solution.slot k = some x) : (b.apply_op op).solution.slot k = some x := by
  cases op with
  | logCard c =>
    cases c with
    | none => exact h
    | some c =>
      show (b.log (some c)).solution.slot k = some x
      rw [LogBook.log_some_solution]
      exact LogBook.find_solution_slot_of_some _ h
  | foundSolution s =>
    rw [LogBook.apply_op_foundSolution]
    exact LogBook.found_solution_slot_some b s h

theorem LogBook.run_slot_some (b : LogBook) (ops : List LogOp) {k : CardType} {x : Card}
    (h : b.solution.slot k = some x) : (b.run ops).solution.slot k = some x := by
  induction ops generalizing b with
  | nil => exact h
  | cons op ops ih => exact ih (b.apply_op op) (LogBook.apply_op_slot_some b op h)

theorem LogBook.mark_self_of_true (b : LogBook) (c : Card) (h : b.log_book c = true) :
    b.mark c = b := by
  unfold LogBook.mark
  have hupd : Function.update b.log_book c true = b.log_book := by
    funext d
    by_cases hdc : d = c
    · subst hdc
      simp [h]
    · simp [Function.update_noteq hdc]
  rw [hupd]

theorem LogBook.log_some_self_true (b : LogBook) (c : Card) :
    (b.log (some c)).log_book c = true := by
  rw [LogBook.log_some_log_book]
  simp

/-- After `log(card)` has run, a second category-scoped deduction pass finds
nothing new to do. -/
theorem LogBook.find_solution_noop_after_log (b : LogBook) (c : Card) :
    ((b.log (some c)).find_solution c.type).solution = (b.log (some c)).solution := by
  rw [LogBook.find_solution_eq]
  split
  · rename_i hcond
    exfalso
    obtain ⟨hlen, hslot⟩ := hcond
    rw [LogBook.log_some_get] at hlen
    rw [LogBook.log_some_solution] at hslot
    rw [LogBook.find_solution_eq] at hslot
    by_cases hfire :
        ((b.mark c).get c.type false).length = 1 ∧ (b.mark c).solution.slot c.type = none
    · rw [if_pos hfire] at hslot
      dsimp only at hslot
      rw [Solution.slot_setSlot_same] at hslot
      obtain ⟨a, ha⟩ := List.length_eq_one.mp hfire.1
      rw [ha] at hslot
      simp at hslot
    · rw [if_neg hfire] at hslot
      exact hfire ⟨hlen, hslot⟩
  · rfl

/-- Shorthand for building concrete weapon cards. -/
def wpn (n : Nat) : Card := ⟨CardType.weapon, n⟩

/-- Shorthand for building concrete character cards. -/
def chr (n : Nat) : Card := ⟨CardType.character, n⟩

/-- Shorthand for building concrete room cards. -/
def rm (n : Nat) : Card := ⟨CardType.room, n⟩

/-- A run consisting only of `log` calls. -/
def LogBook.run_logs (b : LogBook) (cards : List (Option Card)) : LogBook :=
  cards.foldl LogBook.log b

/-- The deduction invariant of a category: an unset slot means the category
does not have exactly one still-candidate card, and a set slot bounds the
still-candidate cards to that very card. -/
def LogBook.inv_slot (b : LogBook) (k : CardType) : Prop :=
  match b.solution.slot k with
  | none => (b.get k false).length ≠ 1
  | some x => ∀ y ∈ b.get k false, y = x

theorem LogBook.init_inv_slot (k : CardType) : LogBook.init.inv_slot k := by
  cases k <;> (unfold LogBook.inv_slot; dsimp [LogBook.init, Solution.slot]; decide)

theorem LogBook.log_preserves_inv (b : LogBook) (c : Option Card) (k : CardType)
    (h : b.inv_slot k) : (b.log c).inv_slot k := by
  cases c with
  | none => exact h
  | some c =>
    by_cases hty : c.type = k
    · subst hty
      have hget : (b.log (some c)).get c.type false =
          (b.get c.type false).filter (fun d => !(d == c)) := by
        rw [LogBook.log_some_get, LogBook.get_mark_false_of_type_eq b rfl]
      have hsol : (b.log (some c)).solution = ((b.mark c).find_solution c.type).solution :=
        LogBook.log_some_solution b c
      rw [LogBook.find_solution_eq] at hsol
      by_cases hfire :
          ((b.mark c).get c.type false).length = 1 ∧ (b.mark c).solution.slot c.type = none
      · rw [if_pos hfire] at hsol
        dsimp only at hsol
        obtain ⟨a, ha⟩ := List.length_eq_one.mp hfire.1
        unfold LogBook.inv_slot
        rw [hsol, Solution.slot_setSlot_same, ha, List.head?_cons]
        show ∀ y ∈ (b.log (some c)).get c.type false, y = a
        rw [LogBook.log_some_get, ha]
        intro y hy
        simpa using hy
      · rw [if_neg hfire] at hsol
        have hmark_get : (b.mark c).get c.type false =
            (b.get c.type false).filter (fun d => !(d == c)) :=
          LogBook.get_mark_false_of_type_eq b rfl
        unfold LogBook.inv_slot at h ⊢
        rw [hsol]
        show match (b.mark c).solution.slot c.type with
          | none => ((b.log (some c)).get c.type false).length ≠ 1
          | some x => ∀ y ∈ (b.log (some c)).get c.type false, y = x
        cases hslot : b.solution.slot c.type with
        | none =>
          have : ¬ ((b.mark c).get c.type false).length = 1 := by
            intro hlen
            exact hfire ⟨hlen, hslot⟩
          rw [show (b.mark c).solution.slot c.type = none from hslot]
          rw [hget, ← hmark_get]
          exact this
        | some x =>
          rw [show (b.mark c).solution.slot c.type = some x from hslot]
          rw [hslot] at h
          intro y hy
          rw [hget] at hy
          exact h y (List.mem_of_mem_filter hy)
    · have hget : (b.log (some c)).get k false = b.get k false := by
        rw [LogBook.log_some_get, LogBook.get_mark_of_type_ne b false hty]
      have hsol : (b.log (some c)).solution.slot k = b.solution.slot k := by
        rw [LogBook.log_some_solution,
          LogBook.find_solution_slot_ne _ (fun hk => hty hk.symm)]
        rfl
      unfold LogBook.inv_slot at h ⊢
      rw [hsol, hget]
      exact h

theorem LogBook.run_logs_inv (cards : List (Option Card)) (b : LogBook) (k : CardType)
    (h : b.inv_slot k) : (b.run_logs cards).inv_slot k := by
  induction cards generalizing b with
  | nil => exact h
  | cons c cards ih => exact ih (b.log c) (LogBook.log_preserves_inv b c k h)

/-! ### Claim theorems -/

/-- C2 counterexample: the claim as stated quantifies over every sequence of
LogBook operations, which includes `found_solution`.  After
`found_solution((character 2, weapon 1, room 1))` on a fresh book and then
logging weapons 1–5, exactly one weapon (weapon 6) is not eliminated, yet the
weapon slot still holds weapon 1 adopted earlier, not the sole remaining
card. -/
theorem C2_counterexample :
    ((LogBook.init.run
        [LogOp.foundSolution ⟨some (chr 2), some (wpn 1), some (rm 1)⟩,
         LogOp.logCard (some (wpn 1)), LogOp.logCard (some (wpn 2)),
         LogOp.logCard (some (wpn 3)), LogOp.logCard (some (wpn 4)),
         LogOp.logCard (some (wpn 5))]).get CardType.weapon false).length = 1 ∧
      (LogBook.init.run
        [LogOp.foundSolution ⟨some (chr 2), some (wpn 1), some (rm 1)⟩,
         LogOp.logCard (some (wpn 1)), LogOp.logCard (some (wpn 2)),
         LogOp.logCard (some (wpn 3)), LogOp.logCard (some (wpn 4)),
         LogOp.logCard (some (wpn 5))]).get CardType.weapon false = [wpn 6] ∧
      (LogBook.init.run
        [LogOp.foundSolution ⟨some (chr 2), some (wpn 1), some (rm 1)⟩,
         LogOp.logCard (some (wpn 1)), LogOp.logCard (some (wpn 2)),
         LogOp.logCard (some (wpn 3)), LogOp.logCard (some (wpn 4)),
         LogOp.logCard (some (wpn 5))]).solution.slot CardType.weapon = some (wpn 1) ∧
      some (wpn 1) ≠ some (wpn 6) := by
  refine ⟨by decide, by decide, by decide, by decide⟩

/-- C2 (amended): restricted to runs made of `log` calls from a fresh
LogBook, whenever exactly one card of a category is not eliminated the
Solution slot of that category equals that card; and a slot once set is never
overwritten by any further LogBook operation (second conjunct, which holds
for arbitrary operation sequences). -/
theorem C2_unique_remaining_deduced :
    (∀ (cards : List (Option Card)) (k : CardType),
      ((LogBook.init.run_logs cards).get k false).length = 1 →
        (LogBook.init.run_logs cards).solution.slot k =
          ((LogBook.init.run_logs cards).get k false).head?) ∧
    (∀ (b : LogBook) (ops : List LogOp) (k : CardType) (x : Card),
      b.solution.slot k = some x → (b.run ops).solution.slot k = some x) := by
  constructor
  · intro cards k hlen
    have hinv := LogBook.run_logs_inv cards LogBook.init k (LogBook.init_inv_slot k)
    unfold LogBook.inv_slot at hinv
    obtain ⟨a, ha⟩ := List.length_eq_one.mp hlen
    cases hslot : (LogBook.init.run_logs cards).solution.slot k with
    | none =>
      rw [hslot] at hinv
      exact absurd hlen hinv
    | some x =>
      rw [hslot] at hinv
      rw [ha, List.head?_cons]
      have hx := hinv a (by rw [ha]; exact List.mem_cons_self a [])
      rw [hx]
  · intro b ops k x h
    exact LogBook.run_slot_some b ops h

/-- C2 witness: logging weapons 1–5 from a fresh book leaves weapon 6 as the
single candidate and the slot equals it; the slot then persists through
further operations. -/
theorem C2_unique_remaining_deduced_witness :
    (LogBook.init.run_logs
        [some (wpn 1), some (wpn 2), some (wpn 3), some (wpn 4),
         some (wpn 5)]).solution.slot CardType.weapon =
      ((LogBook.init.run_logs
        [some (wpn 1), some (wpn 2), some (wpn 3), some (wpn 4),
         some (wpn 5)]).get CardType.weapon false).head? ∧
      ((LogBook.init.run_logs
        [some (wpn 1), some (wpn 2), some (wpn 3), some (wpn 4),
         some (wpn 5)]).run [LogOp.logCard (some (wpn 6))]).solution.slot
          CardType.weapon = some (wpn 6) :=
  ⟨C2_unique_remaining_deduced.1
      [some (wpn 1), some (wpn 2), some (wpn 3), some (wpn 4), some (wpn 5)]
      CardType.weapon (by decide),
    C2_unique_remaining_deduced.2 _ [LogOp.logCard (some (wpn 6))]
      CardType.weapon (wpn 6) (by decide)⟩

/-- C3: the eliminated set is monotonically non-decreasing across every
sequence of LogBook operations (`log` calls interleaved with
`found_solution`): a card once eliminated stays eliminated. -/
theorem C3_eliminated_monotone (b : LogBook) (ops : List LogOp) (d : Card)
    (h : b.log_book d = true) : (b.run ops).log_book d = true := by
  induction ops generalizing b with
  | nil => exact h
  | cons op ops ih => exact ih (b.apply_op op) (LogBook.apply_op_log_book_mono b op d h)

/-- C3 witness at a concrete eliminated card and run. -/
theorem C3_eliminated_monotone_witness :
    (LogBook.init.log (some (wpn 1))).log_book (wpn 1) = true ∧
      ((LogBook.init.log (some (wpn 1))).run
        [LogOp.logCard (some (chr 2)),
         LogOp.foundSolution ⟨some (chr 2), some (wpn 3), some (rm 4)⟩,
         LogOp.logCard none]).log_book (wpn 1) = true :=
  ⟨by decide, C3_eliminated_monotone _ _ _ (by decide)⟩

/-- C9: `log` is idempotent (logging the same card twice equals logging it
once) and `log(None)` is a no-op leaving the whole LogBook unchanged. -/
theorem C9_log_idempotent_none_noop :
    (∀ b : LogBook, b.log none = b) ∧
      ∀ (b : LogBook) (c : Card), (b.log (some c)).log (some c) = b.log (some c) := by
  refine ⟨fun b => rfl, fun b c => ?_⟩
  apply LogBook.ext
  · rw [LogBook.log_some_log_book (b.log (some c)) c, LogBook.log_some_log_book b c,
      Function.update_idem]
  · rw [LogBook.log_some_weapons (b.log (some c)) c, LogBook.log_some_weapons b c]
    cases hcw : c.type == CardType.weapon <;> simp [hcw, List.set_set]
  · rw [LogBook.log_some_characters (b.log (some c)) c, LogBook.log_some_characters b c]
    cases hcc : c.type == CardType.character <;> simp [hcc, List.set_set]
  · rw [LogBook.log_some_rooms (b.log (some c)) c, LogBook.log_some_rooms b c]
    cases hcr : c.type != CardType.weapon && c.type != CardType.character <;>
      simp [hcr, List.set_set]
  · rw [LogBook.log_some_solution (b.log (some c)) c,
      LogBook.mark_self_of_true _ _ (LogBook.log_some_self_true b c),
      LogBook.find_solution_noop_after_log]

/-- C10: `log(c)` changes only `c`'s own eliminated status and possibly the
Solution slot of `c`'s category: other cards' eliminated status and the other
categories' slots are untouched. -/
theorem C10_log_frame (b : LogBook) (c d : Card) (k : CardType)
    (hd : d ≠ c) (hk : k ≠ c.type) :
    (b.log (some c)).log_book d = b.log_book d ∧
      (b.log (some c)).solution.slot k = b.solution.slot k := by
  constructor
  · rw [LogBook.log_some_log_book, Function.update_noteq hd]
  · rw [LogBook.log_some_solution, LogBook.find_solution_slot_ne _ hk]
    rfl

/-- C10 witness: logging weapon 1 leaves weapon 2's status and the room slot
unchanged. -/
theorem C10_log_frame_witness :
    (LogBook.init.log (some (wpn 1))).log_book (wpn 2) = LogBook.init.log_book (wpn 2) ∧
      (LogBook.init.log (some (wpn 1))).solution.slot CardType.room =
        LogBook.init.solution.slot CardType.room :=
  C10_log_frame LogBook.init (wpn 1) (wpn 2) CardType.room (by decide) (by decide)

/-- The state `found_solution` produces from a fresh book for the candidate
(character 2, weapon 1, room 1). -/
def c1Book : LogBook :=
  { log_book := fun _ => false
    weapons := [1, 0, 1, 1, 1, 1]
    characters := [1, 0, 1, 1, 1, 1]
    rooms := [1, 0, 1, 1, 1, 1]
    solution := ⟨some (chr 2), some (wpn 1), some (rm 1)⟩ }

/-- C1 (code bug): on a fresh LogBook and the complete candidate
(character 2, weapon 1, room 1), `found_solution` adopts the candidate as the
deduced solution but eliminates NO card: the per-card map is untouched, so
`get(category, True)` stays empty for all three categories, contrary to the
claim that every sibling card becomes eliminated.  Only the aggregate arrays
are rebuilt, and wrongly: the weapon and room arrays zero the candidate
CHARACTER's index (index 1, though the candidate weapon and room sit at
index 0), and the rooms array is resized to 6 entries for 9 rooms. -/
theorem C1_found_solution_divergence :
    LogBook.init.found_solution ⟨some (chr 2), some (wpn 1), some (rm 1)⟩ =
        Except.ok c1Book ∧
      c1Book.solution = ⟨some (chr 2), some (wpn 1), some (rm 1)⟩ ∧
      c1Book.has_solution = true ∧
      c1Book.get CardType.weapon true = [] ∧
      c1Book.get CardType.character true = [] ∧
      c1Book.get CardType.room true = [] ∧
      c1Book.log_book = LogBook.init.log_book ∧
      c1Book.weapons = [1, 0, 1, 1, 1, 1] ∧
      c1Book.rooms.length = 6 := by
  refine ⟨rfl, rfl, rfl, by decide, by decide, by decide, rfl, rfl, rfl⟩

/-- C4: `next_turn_action` returns ACCUSATION exactly when the log book has a
complete solution, regardless of room and position; otherwise it returns MOVE
when the player is not in a room or the policy declines to guess, and GUESS
otherwise. -/
theorem C4_next_turn_action (p : PlayerState) (policy : PlayerState → Bool) :
    (Player.next_turn_action p policy = PlayerAction.accusation ↔
      p.log_book.has_solution = true) ∧
      Player.next_turn_action p policy =
        (if p.log_book.has_solution then PlayerAction.accusation
         else if p.room = none ∨ policy p = false then PlayerAction.move
         else PlayerAction.guess) := by
  cases h1 : p.log_book.has_solution <;> cases h3 : policy p <;>
    by_cases h2 : p.room = none <;>
    simp [Player.next_turn_action, h1, h2, h3]

/-- C5: `move_path` raises exactly when the path's distance exceeds the roll
(the check precedes the walk, so the error carries no mutated state); when
the distance fits the roll it walks the steps in order, a free-space step
clearing the room and setting the coordinate, a room-entry step setting the
room and clearing the coordinate.  The modelled step type has exactly the two
valid step kinds (spec §6), so the unrecognized-step fatal branch is
unrepresentable. -/
theorem C5_move_path (p : PlayerState) (roll : Nat) (rp : RoomPath) :
    ((∃ e, Player.move_path p roll rp = Except.error e) ↔ roll < rp.distance) ∧
      (roll < rp.distance →
        Player.move_path p roll rp = Except.error "Path is longer than roll") ∧
      (¬ roll < rp.distance →
        Player.move_path p roll rp = Except.ok (rp.path.foldl Player.move_step p)) ∧
      (∀ (q : PlayerState) (row col : Int),
        Player.move_step q (PathStep.space row col) =
          { q with room := none, position := some (row, col) }) ∧
      (∀ (q : PlayerState) (r : Nat),
        Player.move_step q (PathStep.roomPosition r) =
          { q with room := some r, position := none }) := by
  refine ⟨⟨?_, ?_⟩, ?_, ?_, fun q row col => rfl, fun q r => rfl⟩
  · rintro ⟨e, he⟩
    by_cases h : roll < rp.distance
    · exact h
    · unfold Player.move_path at he
      rw [if_neg h] at he
      cases he
  · intro h
    exact ⟨_, by unfold Player.move_path; rw [if_pos h]⟩
  · intro h
    unfold Player.move_path
    rw [if_pos h]
  · intro h
    unfold Player.move_path
    rw [if_neg h]

/-- A sample player off-room at the origin. -/
def samplePlayer : PlayerState :=
  { hand := Hand.empty, log_book := LogBook.init, room := none, position := some (0, 0) }

/-- A sample two-step path into room 7. -/
def samplePath : RoomPath :=
  ⟨7, [PathStep.space 1 2, PathStep.roomPosition 7]⟩

/-- C5 witness: with roll 1 the distance-2 path is rejected; with roll 2 it
is walked, ending inside room 7 with the coordinate cleared. -/
theorem C5_move_path_witness :
    Player.move_path samplePlayer 1 samplePath = Except.error "Path is longer than roll" ∧
      Player.move_path samplePlayer 2 samplePath =
        Except.ok (samplePath.path.foldl Player.move_step samplePlayer) ∧
      samplePath.path.foldl Player.move_step samplePlayer =
        { hand := Hand.empty, log_book := LogBook.init, room := some 7, position := none } :=
  ⟨(C5_move_path samplePlayer 1 samplePath).2.1 (by decide),
    (C5_move_path samplePlayer 2 samplePath).2.2.1 (by decide), rfl⟩

/-- C6: when a remainder is pending (or a fresh path is chosen) whose
distance exceeds the roll, `use_roll` returns exactly the first `roll` steps
with the same target room and retains the dropped steps with the same target
room as the remainder; when the distance fits, it returns the whole path and
the remainder ends up cleared; and `enter_room` always clears the
remainder. -/
theorem C6_use_roll (cp : ComputerPlayerState) (roll : Nat) (chosen : RoomPath) :
    (∀ rp : RoomPath, cp.remaining_path = some rp →
      (rp.distance > roll →
        ComputerPlayer.use_roll cp roll chosen =
          (⟨rp.room, rp.path.take roll⟩,
            { cp with remaining_path := some ⟨rp.room, rp.path.drop roll⟩ }) ∧
          (rp.path.take roll).length = roll) ∧
      (¬ rp.distance > roll →
        ComputerPlayer.use_roll cp roll chosen = (rp, { cp with remaining_path := none }))) ∧
      (cp.remaining_path = none →
        (chosen.distance > roll →
          ComputerPlayer.use_roll cp roll chosen =
            (⟨chosen.room, chosen.path.take roll⟩,
              { cp with remaining_path := some ⟨chosen.room, chosen.path.drop roll⟩ }) ∧
            (chosen.path.take roll).length = roll) ∧
        (¬ chosen.distance > roll →
          ComputerPlayer.use_roll cp roll chosen = (chosen, cp) ∧
            cp.remaining_path = none)) ∧
      ∀ room : Nat, (ComputerPlayer.enter_room cp room).remaining_path = none := by
  refine ⟨?_, ?_, fun room => rfl⟩
  · intro rp hrp
    constructor
    · intro hgt
      constructor
      · unfold ComputerPlayer.use_roll
        rw [hrp]
        dsimp only
        unfold ComputerPlayer.use_remaining_roll
        rw [if_pos hgt]
      · rw [List.length_take]
        exact Nat.min_eq_left (Nat.le_of_lt hgt)
    · intro hle
      unfold ComputerPlayer.use_roll
      rw [hrp]
      dsimp only
      unfold ComputerPlayer.use_remaining_roll
      rw [if_neg hle]
  · intro hnone
    constructor
    · intro hgt
      constructor
      · unfold ComputerPlayer.use_roll
        rw [hnone]
        dsimp only
        rw [if_pos hgt]
      · rw [List.length_take]
        exact Nat.min_eq_left (Nat.le_of_lt hgt)
    · intro hle
      refine ⟨?_, hnone⟩
      unfold ComputerPlayer.use_roll
      rw [hnone]
      dsimp only
      rw [if_neg hle]

/-- A sample computer player carrying a remainder path. -/
def sampleComputer : ComputerPlayerState :=
  { hand := Hand.empty, log_book := LogBook.init, room := none,
    position := some (0, 0), remaining_path := some samplePath }

/-- C6 witness: with roll 1 the distance-2 remainder is split into one step
now and one step retained; with roll 2 it is consumed whole and cleared; and
entering room 4 clears the remainder. -/
theorem C6_use_roll_witness :
    (ComputerPlayer.use_roll sampleComputer 1 samplePath =
        (⟨7, [PathStep.space 1 2]⟩,
          { sampleComputer with remaining_path := some ⟨7, [PathStep.roomPosition 7]⟩ }) ∧
      ([PathStep.space 1 2, PathStep.roomPosition 7].take 1).length = 1) ∧
      ComputerPlayer.use_roll sampleComputer 2 samplePath =
        (samplePath, { sampleComputer with remaining_path := none }) ∧
      (ComputerPlayer.enter_room sampleComputer 4).remaining_path = none :=
  ⟨(C6_use_roll sampleComputer 1 samplePath).1 samplePath rfl |>.1 (by decide),
    (C6_use_roll sampleComputer 2 samplePath).1 samplePath rfl |>.2 (by decide),
    (C6_use_roll sampleComputer 2 samplePath).2.2 4⟩

/-- C7: for a complete guess, `show_card` returns `None` exactly when no
category of the guess matches the hand, and otherwise a Solution with exactly
one populated slot picked character over weapon over room. -/
theorem C7_show_card (p : PlayerState) (guess : Solution) (gc gw gr : Card)
    (hgc : guess.character = some gc) (hgw : guess.weapon = some gw)
    (hgr : guess.room = some gr) :
    Player.show_card p guess =
      Except.ok
        (if p.hand.has_card gc then some ⟨some gc, none, none⟩
         else if p.hand.has_card gw then some ⟨none, some gw, none⟩
         else if p.hand.has_card gr then some ⟨none, none, some gr⟩
         else none) := by
  rcases guess with ⟨s1, s2, s3⟩
  simp only at hgc hgw hgr
  subst hgc
  subst hgw
  subst hgr
  unfold Player.show_card SolutionMatcher.compare_to_hand Hand.has_card_opt
  cases h1 : p.hand.has_card gc <;> cases h2 : p.hand.has_card gw <;>
    cases h3 : p.hand.has_card gr <;>
    simp [Solution.is_empty, h1, h2, h3, Except.bind, bind]

/-- A sample hand holding weapon 1 and room 1 but no character. -/
def sampleHand : Hand := (Hand.empty.add (wpn 1)).add (rm 1)

/-- A sample player holding that hand. -/
def sampleShower : PlayerState :=
  { hand := sampleHand, log_book := LogBook.init, room := none, position := none }

/-- C7 witness: the guess matches both the weapon and the room of the hand,
and exactly one slot — the weapon, per the character-weapon-room tie-break —
is revealed. -/
theorem C7_show_card_witness :
    Player.show_card sampleShower ⟨some (chr 1), some (wpn 1), some (rm 1)⟩ =
        Except.ok
          (if sampleShower.hand.has_card (chr 1) then some ⟨some (chr 1), none, none⟩
           else if sampleShower.hand.has_card (wpn 1) then some ⟨none, some (wpn 1), none⟩
           else if sampleShower.hand.has_card (rm 1) then some ⟨none, none, some (rm 1)⟩
           else none) ∧
      (if sampleShower.hand.has_card (chr 1) then some ⟨some (chr 1), none, none⟩
       else if sampleShower.hand.has_card (wpn 1) then
         some ⟨none, some (wpn 1), none⟩
       else if sampleShower.hand.has_card (rm 1) then some ⟨none, none, some (rm 1)⟩
       else none) = some (⟨none, some (wpn 1), none⟩ : Solution) :=
  ⟨C7_show_card sampleShower ⟨some (chr 1), some (wpn 1), some (rm 1)⟩
      (chr 1) (wpn 1) (rm 1) rfl rfl rfl, by decide⟩

/-- C8 counterexample: the claim covers partial candidates, but on the empty
hand and the fully-unset candidate the source raises (`card.type` on `None`
inside `has_card`) instead of returning the all-unset match Solution. -/
theorem C8_counterexample :
    SolutionMatcher.compare_to_hand Hand.empty ⟨none, none, none⟩ =
        Except.error "AttributeError" ∧
      SolutionMatcher.compare_to_hand Hand.empty ⟨none, none, none⟩ ≠
        Except.ok ⟨none, none, none⟩ := by
  refine ⟨rfl, fun h => ?_⟩
  rw [show SolutionMatcher.compare_to_hand Hand.empty ⟨none, none, none⟩ =
    Except.error "AttributeError" from rfl] at h
  cases h

/-- C8 (amended): for complete candidates, `compare_to_hand` returns a
Solution whose populated slots are exactly the candidate slots whose card the
hand holds; it is a pure function of its two arguments (the model is
functional, so the inputs are untouched by construction). -/
theorem C8_compare_to_hand_complete (hand : Hand) (sol : Solution) (gc gw gr : Card)
    (hgc : sol.character = some gc) (hgw : sol.weapon = some gw)
    (hgr : sol.room = some gr) :
    SolutionMatcher.compare_to_hand hand sol =
      Except.ok
        ⟨if hand.has_card gc then some gc else none,
         if hand.has_card gw then some gw else none,
         if hand.has_card gr then some gr else none⟩ := by
  rcases sol with ⟨s1, s2, s3⟩
  simp only at hgc hgw hgr
  subst hgc
  subst hgw
  subst hgr
  rfl

/-- C8 witness: on the sample hand, the complete candidate's matched slots
are exactly the weapon and the room. -/
theorem C8_compare_to_hand_complete_witness :
    SolutionMatcher.compare_to_hand sampleHand ⟨some (chr 1), some (wpn 1), some (rm 1)⟩ =
        Except.ok
          ⟨if sampleHand.has_card (chr 1) then some (chr 1) else none,
           if sampleHand.has_card (wpn 1) then some (wpn 1) else none,
           if sampleHand.has_card (rm 1) then some (rm 1) else none⟩ ∧
      (⟨if sampleHand.has_card (chr 1) then some (chr 1) else none,
        if sampleHand.has_card (wpn 1) then some (wpn 1) else none,
        if sampleHand.has_card (rm 1) then some (rm 1) else none⟩ : Solution) =
        ⟨none, some (wpn 1), some (rm 1)⟩ :=
  ⟨C8_compare_to_hand_complete sampleHand ⟨some (chr 1), some (wpn 1), some (rm 1)⟩
      (chr 1) (wpn 1) (rm 1) rfl rfl rfl, by decide⟩

end Clue
